import Mathlib

/-!
Verification of the Hound WAV codec core (`src/lib.rs`).

Byte streams are modelled as `List Nat` (each entry an octet in `[0,255]`),
machine integers as `Int`/`Nat` with explicit wrap-around where the Rust
code performs a lossy `as` cast.  Fallible operations return
`Except Error α`, mirroring Rust's `Result<T, hound::Error>`.

The sample-conversion layer (`Sample for i8`, `Sample for i16`,
`signed_from_u8`, `u8_from_signed`) is translated directly from
`src/lib.rs`.  The `read`/`write` modules (byte-level I/O helpers, the
container reader `WavReader` and writer `WavWriter`) are declared in
`lib.rs` but their sources are not part of the repository snapshot, so
those definitions are modelled from the specification and marked as such.
-/

namespace Hound

/-- The error type of `src/lib.rs` (`enum Error`).  The `io::Error` payload
of `IoError` is not representable in a pure model and is dropped; the
`&'static str` payload of `FormatError` is kept as a `String`. -/
inductive Error where
  | IoError : Error
  | FormatError : String → Error
  | TooWide : Error
  | UnfinishedSample : Error
  | Unsupported : Error
deriving DecidableEq, Repr

/-- `WavSpec` from `src/lib.rs`: channel count (`u16`), sample rate
(`u32`) and bits per sample (`u16`), widths modelled as `Nat`. -/
structure WavSpec where
  channels : Nat
  sample_rate : Nat
  bits_per_sample : Nat
deriving DecidableEq, Repr

/-- Rust's `as i8` two's-complement wrap of an integer into `[-128,127]`. -/
def toI8 (n : Int) : Int := (n + 128) % 256 - 128

/-- Rust's `as i16` two's-complement wrap of an integer into `[-32768,32767]`. -/
def toI16 (n : Int) : Int := (n + 32768) % 65536 - 32768

/-- Rust's `as u8` wrap of an integer into `[0,255]`, as a byte. -/
def toU8 (n : Int) : Nat := (n % 256).toNat

/-- `signed_from_u8` from `src/lib.rs`:
`(x as i16 - 128) as i8` for a byte `x` in `[0,255]`. -/
def signed_from_u8 (x : Nat) : Int := toI8 ((x : Int) - 128)

/-- `u8_from_signed` from `src/lib.rs`:
`(x as i16 + 128) as u8` for a signed value `x` in `[-128,127]`. -/
def u8_from_signed (x : Int) : Nat := toU8 (x + 128)

/-- Modelled from the spec: `write_le_i16` of the missing `write` module —
two bytes, little-endian, of the 16-bit two's-complement representation. -/
def write_le_i16 (x : Int) : List Nat :=
  [(x % 65536).toNat % 256, (x % 65536).toNat / 256]

/-- Modelled from the spec: `write_le_i24` of the missing `write` module —
three bytes, little-endian (lowest 3 bytes of the 32-bit representation). -/
def write_le_i24 (x : Int) : List Nat :=
  [(x % 16777216).toNat % 256, (x % 16777216).toNat / 256 % 256,
   (x % 16777216).toNat / 65536]

/-- Modelled from the spec: `write_le_i32` of the missing `write` module —
four bytes, little-endian, of the 32-bit two's-complement representation. -/
def write_le_i32 (x : Int) : List Nat :=
  [(x % 4294967296).toNat % 256, (x % 4294967296).toNat / 256 % 256,
   (x % 4294967296).toNat / 65536 % 256, (x % 4294967296).toNat / 16777216]

/-- Modelled from the spec: `read_u8` of the missing `read` module — read
one byte from the stream, failing with an I/O error when none is left. -/
def read_u8 (inp : List Nat) : Except Error Nat :=
  match inp with
  | [] => .error .IoError
  | b :: _ => .ok b

/-- Modelled from the spec: `read_le_i16` of the missing `read` module —
read two bytes, little-endian, as a signed 16-bit value. -/
def read_le_i16 (inp : List Nat) : Except Error Int :=
  match inp with
  | b0 :: b1 :: _ => .ok (toI16 ((b0 : Int) + 256 * (b1 : Int)))
  | _ => .error .IoError

/-- `impl Sample for i8`, `fn write` from `src/lib.rs`: `match bits`
with arms 8, 16, 24, 32 and a fall-through to `Error::Unsupported`.
The sample `x` carries the `i8` range invariant `[-128,127]`; the Rust
casts `self as i8`, `self as i16`, `self as i32` are value-preserving
on that range. -/
def i8_write (x : Int) (bits : Nat) : Except Error (List Nat) :=
  if bits = 8 then .ok [u8_from_signed x]
  else if bits = 16 then .ok (write_le_i16 x)
  else if bits = 24 then .ok (write_le_i24 x)
  else if bits = 32 then .ok (write_le_i32 x)
  else .error .Unsupported

/-- `impl Sample for i8`, `fn read` from `src/lib.rs`: only the pair
`(bytes, bits) = (1, 8)` is supported; every other pair falls through to
`Error::TooWide`. -/
def i8_read (bytes bits : Nat) (inp : List Nat) : Except Error Int :=
  if bytes = 1 ∧ bits = 8 then (read_u8 inp).map signed_from_u8
  else .error .TooWide

/-- `impl Sample for i16`, `fn write` from `src/lib.rs`: the 8-bit arm
performs the lossy downcast `self as i8` before `u8_from_signed`; the
16/24/32-bit arms write little-endian; any other `bits` value yields
`Error::Unsupported`. -/
def i16_write (x : Int) (bits : Nat) : Except Error (List Nat) :=
  if bits = 8 then .ok [u8_from_signed (toI8 x)]
  else if bits = 16 then .ok (write_le_i16 x)
  else if bits = 24 then .ok (write_le_i24 x)
  else if bits = 32 then .ok (write_le_i32 x)
  else .error .Unsupported

/-- `impl Sample for i16`, `fn read` from `src/lib.rs`: the pairs
`(1, 8)` (unsigned byte, sign-converted then widened) and `(2, 16)`
(little-endian signed) are supported; every other pair falls through to
`Error::TooWide`. -/
def i16_read (bytes bits : Nat) (inp : List Nat) : Except Error Int :=
  if bytes = 1 ∧ bits = 8 then (read_u8 inp).map (fun b => signed_from_u8 b)
  else if bytes = 2 ∧ bits = 16 then read_le_i16 inp
  else .error .TooWide

/-- A 16-bit value as two little-endian bytes. -/
def u16le (n : Nat) : List Nat := [n % 256, n / 256 % 256]

/-- A 32-bit value as four little-endian bytes. -/
def u32le (n : Nat) : List Nat :=
  [n % 256, n / 256 % 256, n / 65536 % 256, n / 16777216 % 256]

/-- Four little-endian bytes read back as a 32-bit value. -/
def readU32le (l : List Nat) : Nat :=
  l.getD 0 0 + 256 * l.getD 1 0 + 65536 * l.getD 2 0 + 16777216 * l.getD 3 0

/-- The ASCII bytes of the chunk tag `RIFF`. -/
def riffTag : List Nat := [82, 73, 70, 70]

/-- The ASCII bytes of the format tag `WAVE`. -/
def waveTag : List Nat := [87, 65, 86, 69]

/-- The ASCII bytes of the chunk tag `fmt ` (with trailing space). -/
def fmtTag : List Nat := [102, 109, 116, 32]

/-- The ASCII bytes of the chunk tag `data`. -/
def dataTag : List Nat := [100, 97, 116, 97]

/-- Bytes per sample: `ceil(bits_per_sample / 8)`. -/
def bytesPerSample (bits : Nat) : Nat := (bits + 7) / 8

/-- Modelled from the spec: the 44-byte WAV header of §6 of the spec,
as emitted by the missing `write` module's `WavWriter`, parameterized by
the two size fields that are placeholders (0) until finalization. -/
def wavHeader (s : WavSpec) (riffSize dataSize : Nat) : List Nat :=
  riffTag ++ u32le riffSize ++ waveTag ++
  fmtTag ++ u32le 16 ++ u16le 1 ++ u16le s.channels ++ u32le s.sample_rate ++
  u32le (s.sample_rate * s.channels * bytesPerSample s.bits_per_sample) ++
  u16le (s.channels * bytesPerSample s.bits_per_sample) ++
  u16le s.bits_per_sample ++
  dataTag ++ u32le dataSize

/-- Modelled from the spec: the state of the missing `write` module's
`WavWriter` — the spec, the bytes emitted so far (provisional header
followed by sample bytes), and the running counters `data_bytes_written`
and `samples_written`. -/
structure WavWriter where
  spec : WavSpec
  buffer : List Nat
  data_bytes_written : Nat
  samples_written : Nat

/-- Overwrite the bytes of `l` starting at offset `off` with `repl`
(a seek-backward followed by a write on a buffered sink). -/
def setBytes (l : List Nat) (off : Nat) (repl : List Nat) : List Nat :=
  l.take off ++ repl ++ l.drop (off + repl.length)

/-- Modelled from the spec: `WavWriter::finalize` of the missing `write`
module.  Fails with `UnfinishedSample` when `samples_written` is not a
multiple of the channel count; otherwise patches the RIFF chunk-size
field (offset 4) with `36 + data_bytes_written` and the `data` chunk-size
field (offset 40) with `data_bytes_written`, both little-endian u32, and
appends a single pad byte exactly when `data_bytes_written` is odd.
Returns the final byte stream. -/
def finalize (w : WavWriter) : Except Error (List Nat) :=
  if w.samples_written % w.spec.channels ≠ 0 then .error .UnfinishedSample
  else .ok
    (setBytes (setBytes w.buffer 4 (u32le (36 + w.data_bytes_written)))
        40 (u32le w.data_bytes_written) ++
      (if w.data_bytes_written % 2 = 1 then [0] else []))

/-- Modelled from the spec: parsing the 16-byte `fmt ` chunk body of the
missing `read` module — format tag (must be 1, PCM), channel count,
sample rate, bits per sample; fails with `FormatError` otherwise. -/
def parseFmt (body : List Nat) : Except Error WavSpec :=
  if body.length = 16 ∧ body.getD 0 0 + 256 * body.getD 1 0 = 1 then
    .ok ⟨body.getD 2 0 + 256 * body.getD 3 0,
         readU32le (body.drop 4),
         body.getD 14 0 + 256 * body.getD 15 0⟩
  else .error (.FormatError "invalid fmt chunk")

/-- The 4-byte id of the chunk starting at the head of the stream. -/
def chunkId (bytes : List Nat) : List Nat := bytes.take 4

/-- The declared size of the chunk starting at the head of the stream. -/
def chunkSize (bytes : List Nat) : Nat := readU32le ((bytes.drop 4).take 4)

/-- The on-stream footprint of a chunk body: declared size plus a pad
byte when the size is odd. -/
def chunkStride (bytes : List Nat) : Nat :=
  chunkSize bytes + chunkSize bytes % 2

/-- Modelled from the spec: the chunk scan of the missing `read` module.
Starting just past the 12-byte RIFF header, repeatedly read a chunk
header (4-byte id, little-endian u32 size); parse a `fmt ` chunk into a
`WavSpec`, stop at the `data` chunk (which must be preceded by `fmt `),
and skip any other chunk by its declared size plus a pad byte when the
size is odd.  Fails with `FormatError` when the stream ends (or a chunk
is truncated) before a `data` chunk is found. -/
def findData (bytes : List Nat) (sp : Option WavSpec) :
    Except Error (WavSpec × List Nat) :=
  if h : bytes.length < 8 then .error (.FormatError "no data chunk")
  else if chunkId bytes = dataTag then
    match sp with
    | some s => .ok (s, (bytes.drop 8).take (chunkSize bytes))
    | none => .error (.FormatError "data chunk before fmt chunk")
  else if (bytes.drop 8).length < chunkStride bytes then
    .error (.FormatError "no data chunk")
  else if chunkId bytes = fmtTag then
    match parseFmt ((bytes.drop 8).take (chunkSize bytes)) with
    | .ok s => findData (bytes.drop (8 + chunkStride bytes)) (some s)
    | .error e => .error e
  else findData (bytes.drop (8 + chunkStride bytes)) sp
termination_by bytes.length
decreasing_by
  all_goals simp [List.length_drop]; omega

/-- Modelled from the spec: `WavReader::new` / `open` of the missing
`read` module — validate the `RIFF` tag at offset 0 and the `WAVE` tag at
offset 8 (failing with `FormatError` otherwise), then scan the chunks for
`fmt ` and `data`.  On success returns the parsed `WavSpec` and the bytes
of the `data` chunk body. -/
def openWav (bytes : List Nat) : Except Error (WavSpec × List Nat) :=
  if bytes.take 4 = riffTag ∧ (bytes.drop 8).take 4 = waveTag ∧
      12 ≤ bytes.length then
    findData (bytes.drop 12) none
  else .error (.FormatError "no RIFF tag found")

/-- A serialized chunk: 4-byte id, little-endian u32 size, body, and a
pad byte when the body length is odd (spec §3, Container). -/
def serializeChunk (c : List Nat × List Nat) : List Nat :=
  c.1 ++ u32le c.2.length ++ c.2 ++ (if c.2.length % 2 = 1 then [0] else [])

/-- A serialized sequence of chunks. -/
def serializeChunks (cs : List (List Nat × List Nat)) : List Nat :=
  match cs with
  | [] => []
  | c :: rest => serializeChunk c ++ serializeChunks rest

/-- The 12-byte RIFF/WAVE container header with the given size field. -/
def riffHdr (sz : Nat) : List Nat := riffTag ++ u32le sz ++ waveTag

end Hound

example : Hound.signed_from_u8 0 = -128 := by decide
example : Hound.signed_from_u8 255 = 127 := by decide
example : Hound.u8_from_signed (-128) = 0 := by decide
example : Hound.i8_write (-5) 8 = .ok [123] := rfl
example : Hound.i16_write (-2) 16 = .ok [254, 255] := rfl
example : Hound.i16_read 2 16 [254, 255] = .ok (-2) := rfl
example : Hound.i16_read 3 24 [0, 0, 0] = .error .TooWide := rfl
example : Hound.i16_write 1000 8 = .ok [Hound.u8_from_signed (Hound.toI8 1000)] := rfl

namespace Hound

/-- Decoding an 8-bit stored sample into the 16-bit logical type inverts
`u8_from_signed` (shared helper for the round-trip results). -/
theorem i16_read_u8_inverse (x : Int) (h1 : -128 ≤ x) (h2 : x ≤ 127) :
    i16_read 1 8 [u8_from_signed x] = .ok x := by
  have hr : i16_read 1 8 [u8_from_signed x]
      = .ok (signed_from_u8 (u8_from_signed x)) := rfl
  rw [hr]
  simp only [signed_from_u8, u8_from_signed, toI8, toU8, Except.ok.injEq]
  omega

/-- C6: the 8-bit sign-conversion helpers are mutually inverse bijections
between the unsigned byte range `[0,255]` and the signed range
`[-128,127]`. -/
theorem u8_sign_conversion_bijective :
    (∀ u : Nat, u ≤ 255 → u8_from_signed (signed_from_u8 u) = u) ∧
    (∀ s : Int, -128 ≤ s → s ≤ 127 → signed_from_u8 (u8_from_signed s) = s) := by
  constructor
  · intro u hu
    simp only [u8_from_signed, signed_from_u8, toI8, toU8]
    omega
  · intro s h1 h2
    simp only [u8_from_signed, signed_from_u8, toI8, toU8]
    omega

theorem u8_sign_conversion_bijective_witness :
    u8_from_signed (signed_from_u8 200) = 200 ∧
    signed_from_u8 (u8_from_signed (-57)) = -57 :=
  ⟨u8_sign_conversion_bijective.1 200 (by norm_num),
   u8_sign_conversion_bijective.2 (-57) (by norm_num) (by norm_num)⟩

/-- C7: encoding an `i8` sample at `bits_per_sample = 8` produces exactly
one byte, whose unsigned value is `x + 128`. -/
theorem i8_write_8_adds_128 (x : Int) (h1 : -128 ≤ x) (h2 : x ≤ 127) :
    i8_write x 8 = .ok [(x + 128).toNat] ∧ (x + 128).toNat ≤ 255 := by
  constructor
  · have hw : i8_write x 8 = .ok [u8_from_signed x] := rfl
    rw [hw]
    simp only [u8_from_signed, toU8, Except.ok.injEq, List.cons.injEq, and_true]
    omega
  · omega

theorem i8_write_8_adds_128_witness :
    i8_write (-5) 8 = .ok [123] ∧ (123 : Nat) ≤ 255 := by
  have h := i8_write_8_adds_128 (-5) (by norm_num) (by norm_num)
  simpa using h

/-- C9: encoding any sample at a `bits_per_sample` value outside
`{8,16,24,32}` fails with `Unsupported` for both implemented sample
types, producing no bytes. -/
theorem write_unsupported_bits (x : Int) (bits : Nat)
    (h8 : bits ≠ 8) (h16 : bits ≠ 16) (h24 : bits ≠ 24) (h32 : bits ≠ 32) :
    i8_write x bits = .error .Unsupported ∧
    i16_write x bits = .error .Unsupported := by
  constructor <;> simp [i8_write, i16_write, h8, h16, h24, h32]

theorem write_unsupported_bits_witness :
    i8_write 0 12 = .error .Unsupported ∧
    i16_write 0 12 = .error .Unsupported :=
  write_unsupported_bits 0 12 (by norm_num) (by norm_num) (by norm_num)
    (by norm_num)

/-- C10: encoding an `i16` sample at `bits_per_sample = 8` never fails;
it wraps the sample by the `as i8` two's-complement downcast (a reduction
modulo 256) before the `+128` mapping, so values outside `[-128,127]` are
stored as a different sample value rather than rejected. -/
theorem i16_write_8_wraps (x : Int) (h1 : -32768 ≤ x) (h2 : x ≤ 32767) :
    i16_write x 8 = .ok [u8_from_signed (toI8 x)] ∧
    toI8 x % 256 = x % 256 ∧
    i16_read 1 8 [u8_from_signed (toI8 x)] = .ok (toI8 x) ∧
    ((x < -128 ∨ 127 < x) → toI8 x ≠ x) := by
  refine ⟨rfl, ?_, ?_, ?_⟩
  · simp only [toI8]
    omega
  · exact i16_read_u8_inverse (toI8 x) (by simp only [toI8]; omega)
      (by simp only [toI8]; omega)
  · intro hout
    simp only [toI8]
    omega

theorem i16_write_8_wraps_witness :
    i16_write 1000 8 = .ok [u8_from_signed (toI8 1000)] ∧
    toI8 1000 ≠ 1000 := by
  have h := i16_write_8_wraps 1000 (by norm_num) (by norm_num)
  exact ⟨h.1, h.2.2.2 (by norm_num)⟩

end Hound

namespace Hound

/-- C3 counterexample: decoding with a stored bit depth of 12 — outside
the supported set `{8,16,24,32}` — yields `TooWide`, not `Unsupported`:
both `read` implementations send every unmatched `(bytes, bits)` pair to
`Error::TooWide`. -/
theorem read_12_bit_not_unsupported :
    i16_read 2 12 [0, 0] = .error .TooWide ∧
    i16_read 2 12 [0, 0] ≠ .error .Unsupported := by
  refine ⟨rfl, ?_⟩
  intro h
  have hts : Error.TooWide = Error.Unsupported := by
    have h0 : i16_read 2 12 [0, 0] = .error .TooWide := rfl
    rw [h0] at h
    exact Except.error.inj h
  exact absurd hts (by decide)

/-- C3 amended: decoding with a `(byte-width, bits_per_sample)` pair that
is not a supported combination for the requested logical width fails with
the typed error `TooWide` — for every pair unmatched for that width
(`i8` supports only `(1,8)`; `i16` only `(1,8)` and `(2,16)`), including
the mixed-width case of a 16-bit sample requested at the 8-bit logical
width and bit depths outside `{8,16,24,32}` (the code does not
distinguish a separate `Unsupported` case on the decode path) — and
never truncates. -/
theorem read_unmatched_pair_too_wide (bytes bits : Nat) (inp : List Nat) :
    (¬(bytes = 1 ∧ bits = 8) →
      i8_read bytes bits inp = .error .TooWide) ∧
    (¬(bytes = 1 ∧ bits = 8) → ¬(bytes = 2 ∧ bits = 16) →
      i16_read bytes bits inp = .error .TooWide) := by
  constructor
  · intro h1
    simp [i8_read, h1]
  · intro h1 h2
    simp [i16_read, h1, h2]

theorem read_unmatched_pair_too_wide_witness :
    i8_read 2 16 [0, 0] = .error .TooWide ∧
    i16_read 3 24 [] = .error .TooWide :=
  ⟨(read_unmatched_pair_too_wide 2 16 [0, 0]).1 (by norm_num),
   (read_unmatched_pair_too_wide 3 24 []).2 (by norm_num) (by norm_num)⟩

/-- C1 counterexample: the sample `0` encoded at bit depth 24 produces
the three bytes `[0,0,0]`, but neither implemented logical sample type
(`i8` or `i16`) can decode a 24-bit sample — both fail with `TooWide` —
so `decode(encode(0, 24), 24)` does not yield `0` at any implemented
logical width. -/
theorem roundtrip_24_bit_fails :
    i16_write 0 24 = .ok [0, 0, 0] ∧
    i8_write 0 24 = .ok [0, 0, 0] ∧
    i8_read 3 24 [0, 0, 0] = .error .TooWide ∧
    i16_read 3 24 [0, 0, 0] = .error .TooWide :=
  ⟨rfl, rfl, rfl, rfl⟩

/-- C1 amended: the encode/decode round-trip holds at the implemented
depths — every `i8` sample round-trips at depth 8 and every `i16` sample
round-trips at depth 16; depths 24 and 32 can be encoded but no
implemented logical sample type can decode them. -/
theorem roundtrip_8_16 :
    (∀ x : Int, -128 ≤ x → x ≤ 127 →
      ∃ bs, i8_write x 8 = .ok bs ∧ i8_read 1 8 bs = .ok x) ∧
    (∀ x : Int, -32768 ≤ x → x ≤ 32767 →
      ∃ bs, i16_write x 16 = .ok bs ∧ i16_read 2 16 bs = .ok x) := by
  constructor
  · intro x h1 h2
    refine ⟨[u8_from_signed x], rfl, ?_⟩
    have hr : i8_read 1 8 [u8_from_signed x]
        = .ok (signed_from_u8 (u8_from_signed x)) := rfl
    rw [hr]
    simp only [signed_from_u8, u8_from_signed, toI8, toU8, Except.ok.injEq]
    omega
  · intro x h1 h2
    refine ⟨write_le_i16 x, rfl, ?_⟩
    have hr : i16_read 2 16 (write_le_i16 x)
        = .ok (toI16 (((x % 65536).toNat % 256 : Nat)
            + 256 * ((x % 65536).toNat / 256 : Nat))) := rfl
    rw [hr]
    simp only [toI16, Except.ok.injEq]
    omega

theorem roundtrip_8_16_witness :
    (∃ bs, i8_write (-5) 8 = .ok bs ∧ i8_read 1 8 bs = .ok (-5)) ∧
    (∃ bs, i16_write (-1000) 16 = .ok bs ∧ i16_read 2 16 bs = .ok (-1000)) :=
  ⟨roundtrip_8_16.1 (-5) (by norm_num) (by norm_num),
   roundtrip_8_16.2 (-1000) (by norm_num) (by norm_num)⟩

/-- C8: a sample stored as one unsigned byte at depth 8 decodes at the
16-bit logical width to the same signed value (lossless widening), and
the whole range `-128..127`, written at depth 8 and read back as 16-bit
samples, reproduces the same values in order. -/
theorem widening_8_to_16 :
    (∀ x : Int, -128 ≤ x → x ≤ 127 →
      i8_write x 8 = .ok [u8_from_signed x] ∧
      i16_read 1 8 [u8_from_signed x] = .ok x) ∧
    ((List.range 256).map
        (fun (n : Nat) => i16_read 1 8 [u8_from_signed ((n : Int) - 128)])
      = (List.range 256).map (fun (n : Nat) => Except.ok ((n : Int) - 128))) := by
  constructor
  · intro x h1 h2
    exact ⟨rfl, i16_read_u8_inverse x h1 h2⟩
  · refine List.map_congr_left ?_
    intro n hn
    have hn' : n < 256 := by simpa using hn
    exact i16_read_u8_inverse ((n : Int) - 128) (by omega) (by omega)

theorem widening_8_to_16_witness :
    i8_write 100 8 = .ok [u8_from_signed 100] ∧
    i16_read 1 8 [u8_from_signed 100] = .ok 100 :=
  widening_8_to_16.1 100 (by norm_num) (by norm_num)

end Hound

namespace Hound

set_option maxHeartbeats 2000000 in
/-- C2: when finalize succeeds (`samples_written` divides evenly over the
channels) on a writer whose stream is the provisional header followed by
the sample data, it patches the RIFF chunk-size field at offset 4 with
`36 + data_bytes_written` and the `data` chunk-size field at offset 40
with `data_bytes_written`, both little-endian u32, and appends exactly
one pad byte — not counted in the `data` size field — exactly when
`data_bytes_written` is odd. -/
theorem finalize_patches_sizes (s : WavSpec) (data : List Nat) (d n : Nat)
    (h : n % s.channels = 0) :
    ∃ out, finalize ⟨s, wavHeader s 0 0 ++ data, d, n⟩ = .ok out ∧
      (out.drop 4).take 4 = u32le (36 + d) ∧
      (out.drop 40).take 4 = u32le d ∧
      out.length = 44 + data.length + (if d % 2 = 1 then 1 else 0) ∧
      out = wavHeader s (36 + d) d ++ data ++
        (if d % 2 = 1 then [0] else []) := by
  refine ⟨wavHeader s (36 + d) d ++ data ++ (if d % 2 = 1 then [0] else []),
    ?_, ?_, ?_, ?_, ?_⟩
  · show (if ¬n % s.channels = 0 then Except.error Error.UnfinishedSample
      else _) = _
    rw [if_neg (by omega)]
    exact congrArg Except.ok rfl
  · exact rfl
  · exact rfl
  · by_cases hd : d % 2 = 1 <;>
      simp [hd, wavHeader, u32le, u16le, riffTag, waveTag, fmtTag, dataTag] <;>
      omega
  · exact rfl

theorem finalize_patches_sizes_witness :
    ∃ out,
      finalize ⟨⟨2, 44100, 16⟩, wavHeader ⟨2, 44100, 16⟩ 0 0 ++ [5, 6, 7], 3, 2⟩
        = .ok out ∧
      (out.drop 4).take 4 = u32le 39 ∧
      (out.drop 40).take 4 = u32le 3 ∧
      out.length = 44 + 3 + (if 3 % 2 = 1 then 1 else 0) ∧
      out = wavHeader ⟨2, 44100, 16⟩ 39 3 ++ [5, 6, 7] ++
        (if 3 % 2 = 1 then [0] else []) := by
  have h := finalize_patches_sizes ⟨2, 44100, 16⟩ [5, 6, 7] 3 2 (by norm_num)
  simpa using h

/-- C4: finalize on a writer whose `samples_written` is not a multiple of
the channel count fails with `UnfinishedSample`, producing no output
stream at all — in particular it appends no padding and leaves any
previously finalized stream untouched. -/
theorem finalize_unfinished_sample (w : WavWriter)
    (h : w.samples_written % w.spec.channels ≠ 0) :
    finalize w = .error .UnfinishedSample := by
  simp [finalize, h]

theorem finalize_unfinished_sample_witness :
    finalize ⟨⟨2, 44100, 16⟩, wavHeader ⟨2, 44100, 16⟩ 0 0 ++ [5, 6, 7, 8, 9, 10],
        6, 3⟩ = .error .UnfinishedSample :=
  finalize_unfinished_sample _ (by norm_num)

end Hound

namespace Hound

/-- Little-endian 32-bit serialization round-trips for values below `2^32`. -/
theorem readU32le_u32le (n : Nat) (h : n < 4294967296) :
    readU32le (u32le n) = n := by
  simp [readU32le, u32le]
  omega

/-- `parseFmt` only ever fails with a `FormatError`. -/
theorem parseFmt_error (body : List Nat) (e : Error)
    (h : parseFmt body = .error e) : ∃ r, e = .FormatError r := by
  unfold parseFmt at h
  split at h
  · exact absurd h (by simp)
  · exact ⟨"invalid fmt chunk", (Except.error.inj h).symm⟩

/-- The on-stream length of a serialized chunk. -/
theorem serializeChunk_length (c : List Nat × List Nat) :
    (serializeChunk c).length
      = c.1.length + 4 + c.2.length + c.2.length % 2 := by
  by_cases hd : c.2.length % 2 = 1 <;>
    simp [serializeChunk, u32le, hd, List.length_append] <;> omega

/-- The id read off a serialized chunk at the head of the stream. -/
theorem chunkId_cons (c : List Nat × List Nat) (rest : List Nat)
    (h4 : c.1.length = 4) :
    chunkId (serializeChunk c ++ rest) = c.1 := by
  simp only [chunkId, serializeChunk, List.append_assoc]
  exact List.take_left' h4

/-- The size read off a serialized chunk at the head of the stream. -/
theorem chunkSize_cons (c : List Nat × List Nat) (rest : List Nat)
    (h4 : c.1.length = 4) (hlt : c.2.length < 4294967296) :
    chunkSize (serializeChunk c ++ rest) = c.2.length := by
  simp only [chunkSize, serializeChunk, List.append_assoc]
  rw [List.drop_left' h4, List.take_left' (by simp [u32le])]
  exact readU32le_u32le c.2.length hlt

/-- The body read off a serialized chunk at the head of the stream. -/
theorem chunkBody_cons (c : List Nat × List Nat) (rest : List Nat)
    (h4 : c.1.length = 4) :
    ((serializeChunk c ++ rest).drop 8).take c.2.length = c.2 := by
  have h8 : (c.1 ++ u32le c.2.length).length = 8 := by
    simp [List.length_append, h4, u32le]
  calc ((serializeChunk c ++ rest).drop 8).take c.2.length
      = (((c.1 ++ u32le c.2.length) ++
          (c.2 ++ ((if c.2.length % 2 = 1 then [0] else []) ++ rest))).drop
            8).take c.2.length := by
        simp only [serializeChunk, List.append_assoc]
    _ = (c.2 ++ ((if c.2.length % 2 = 1 then [0] else []) ++ rest)).take
          c.2.length := by rw [List.drop_left' h8]
    _ = c.2 := List.take_left' rfl

/-- Dropping a whole serialized chunk lands on the rest of the stream. -/
theorem chunkDrop_cons (c : List Nat × List Nat) (rest : List Nat)
    (h4 : c.1.length = 4) :
    (serializeChunk c ++ rest).drop (8 + (c.2.length + c.2.length % 2))
      = rest :=
  List.drop_left' (by rw [serializeChunk_length]; omega)

/-- One step of the chunk scan across a serialized non-`data` chunk. -/
theorem findData_cons (c : List Nat × List Nat) (rest : List Nat)
    (sp : Option WavSpec) (h4 : c.1.length = 4)
    (hlt : c.2.length < 4294967296) (hnd : c.1 ≠ dataTag) :
    findData (serializeChunk c ++ rest) sp =
      if c.1 = fmtTag then
        match parseFmt c.2 with
        | .ok s => findData rest (some s)
        | .error e => .error e
      else findData rest sp := by
  have hid := chunkId_cons c rest h4
  have hsz := chunkSize_cons c rest h4 hlt
  have hstr : chunkStride (serializeChunk c ++ rest)
      = c.2.length + c.2.length % 2 := by
    simp [chunkStride, hsz]
  have hlen : ¬(serializeChunk c ++ rest).length < 8 := by
    rw [List.length_append, serializeChunk_length]; omega
  have hbound : ¬((serializeChunk c ++ rest).drop 8).length
      < chunkStride (serializeChunk c ++ rest) := by
    rw [hstr, List.length_drop, List.length_append, serializeChunk_length]
    omega
  rw [findData.eq_def, dif_neg hlen, hid, if_neg hnd, if_neg hbound, hstr,
    chunkDrop_cons c rest h4, hsz, chunkBody_cons c rest h4]

/-- The chunk scan over a stream of well-formed chunks none of which is a
`data` chunk fails with a `FormatError`, whatever `fmt ` information has
been gathered so far. -/
theorem findData_no_data (cs : List (List Nat × List Nat)) :
    ∀ sp : Option WavSpec,
    (∀ c ∈ cs, c.1.length = 4 ∧ c.1 ≠ dataTag ∧ c.2.length < 4294967296) →
    ∃ r, findData (serializeChunks cs) sp = .error (.FormatError r) := by
  induction cs with
  | nil =>
    intro sp _
    refine ⟨"no data chunk", ?_⟩
    rw [show serializeChunks [] = [] from rfl, findData.eq_def,
      dif_pos (by simp)]
  | cons c rest ih =>
    intro sp h
    have hc := h c (by simp)
    have hrest : ∀ c' ∈ rest,
        c'.1.length = 4 ∧ c'.1 ≠ dataTag ∧ c'.2.length < 4294967296 :=
      fun c' hc' => h c' (by simp [hc'])
    rw [show serializeChunks (c :: rest)
        = serializeChunk c ++ serializeChunks rest from rfl,
      findData_cons c (serializeChunks rest) sp hc.1 hc.2.2 hc.2.1]
    by_cases hf : c.1 = fmtTag
    · rw [if_pos hf]
      cases hp : parseFmt c.2 with
      | ok s => exact ih (some s) hrest
      | error e =>
        obtain ⟨r, hr⟩ := parseFmt_error c.2 e hp
        exact ⟨r, by rw [hr]⟩
    · rw [if_neg hf]
      exact ih sp hrest

end Hound

namespace Hound

/-- C5: a byte stream with a valid `RIFF`/`WAVE` header followed by
well-formed chunks that include a `fmt ` chunk but no `data` chunk fails
to open with a `FormatError`; it does not succeed with an empty sample
sequence. -/
theorem open_missing_data (sz : Nat) (cs : List (List Nat × List Nat))
    (hids : ∀ c ∈ cs,
      c.1.length = 4 ∧ c.1 ≠ dataTag ∧ c.2.length < 4294967296)
    (_hfmt : fmtTag ∈ cs.map Prod.fst) :
    ∃ r, openWav (riffHdr sz ++ serializeChunks cs)
      = .error (.FormatError r) := by
  have h12 : (riffHdr sz).length = 12 := by
    simp [riffHdr, riffTag, waveTag, u32le]
  have hcond : (riffHdr sz ++ serializeChunks cs).take 4 = riffTag ∧
      ((riffHdr sz ++ serializeChunks cs).drop 8).take 4 = waveTag ∧
      12 ≤ (riffHdr sz ++ serializeChunks cs).length := by
    refine ⟨rfl, rfl, ?_⟩
    rw [List.length_append, h12]
    omega
  rw [openWav, if_pos hcond, List.drop_left' h12]
  exact findData_no_data cs none hids

theorem open_missing_data_witness :
    ∃ r, openWav (riffHdr 36 ++ serializeChunks
        [(fmtTag, [1, 0, 1, 0, 68, 172, 0, 0, 68, 172, 0, 0, 1, 0, 8, 0])])
      = .error (.FormatError r) :=
  open_missing_data 36
    [(fmtTag, [1, 0, 1, 0, 68, 172, 0, 0, 68, 172, 0, 0, 1, 0, 8, 0])]
    (by decide) (by decide)

end Hound
